import Mathlib

/-!
Verification development for the multi-channel customer-query router.

The Python sources are shallowly embedded:
* `intent_classifier.py` — the Gemini-response parser and the deterministic
  keyword/pattern fallback classifier (`_fallback_classification`), including a
  faithful executable model of every regular expression the fallback uses;
* `router_agent.py` — `_make_routing_decision` and the parts of `process_query`
  the claims are about;
* `ticket_manager.py` — `_generate_ticket_id`;
* `learning_system.py` / `database.py` — `analyze_and_update_patterns` and
  `save_learning_pattern`.

Machine floats are modelled as rationals, Python strings as `List Char`,
and the sqlite `learning_patterns` table as a list of rows.  Free-text
`reasoning` fields are omitted: the spec states they are advisory only and
never parsed downstream.
-/

namespace QueryRouter

/-- Python strings are modelled as lists of characters. -/
abbrev Text := List Char

/-- Shorthand: the character list of a string literal. -/
def txt (s : String) : Text := s.data

/-- The apostrophe character (used by keyword lists containing it). -/
def aposChar : Char := Char.ofNat 39

/-- Python `\w` on the ASCII texts this system handles: `[a-zA-Z0-9_]`. -/
def isWordChar (c : Char) : Bool := c.isAlpha || c.isDigit || c = '_'

/-- Python `\s` (ASCII): space, tab, newline, carriage return, vertical tab, form feed. -/
def isPySpace (c : Char) : Bool :=
  c = ' ' || c = '\t' || c = '\n' || c = '\r' || c = Char.ofNat 11 || c = Char.ofNat 12

/-- Python `\d`. -/
def isPyDigit (c : Char) : Bool := c.isDigit

/-- Python `[a-z]`. -/
def isLowerAZ (c : Char) : Bool := 'a' ≤ c && c ≤ 'z'

/-- Python `str.lower()` on ASCII text. -/
def pyLower (s : Text) : Text := s.map Char.toLower

/-- Python `str.strip()` (strip whitespace from both ends). -/
def pyStrip (s : Text) : Text :=
  ((s.dropWhile isPySpace).reverse.dropWhile isPySpace).reverse

/-- Python's substring test `pat in s` (contiguous containment). -/
def containsT (s pat : Text) : Bool :=
  match s with
  | [] => pat.isEmpty
  | _ :: t => pat.isPrefixOf s || containsT t pat

/-- Python's binary `min` on floats, modelled on rationals
(executable, unlike Mathlib's lattice `min` in kernel reduction). -/
def minQ (a b : ℚ) : ℚ := if a ≤ b then a else b

/-- Word-char test of an optional character; `none` (string edge) is a non-word position. -/
def wopt : Option Char → Bool
  | some c => isWordChar c
  | none => false

/-! ### A small regex engine

Exactly the constructs appearing in the classifier's patterns: literals
(case-sensitive and case-insensitive), single-character classes, greedy
`*` over a class, greedy `?`, concatenation, ordered alternation, and the
word-boundary assertion `\b`.  Matching uses the same backtracking order as
Python `re`: alternatives left to right, quantifiers greedy with give-back. -/

inductive RE where
  | eps : RE
  | lit : Text → RE
  | liti : Text → RE
  | cls : (Char → Bool) → RE
  | cat : RE → RE → RE
  | alt : RE → RE → RE
  | opt : RE → RE
  | star : (Char → Bool) → RE
  | bnd : RE

/-- First-success choice on `Option`, mirroring backtracking preference. -/
def oor (a : Option Nat) (b : Unit → Option Nat) : Option Nat :=
  match a with
  | some v => some v
  | none => b ()

/-- Match a literal (optionally case-insensitively), threading the
word-char status of the previously consumed character. -/
def litM (cs : Text) (ci : Bool) (prev : Bool) (s : Text)
    (k : Bool → Text → Option Nat) : Option Nat :=
  match cs, s with
  | [], _ => k prev s
  | _ :: _, [] => none
  | c :: cs', d :: s' =>
      if (if ci then c.toLower = d.toLower else c = d) then
        litM cs' ci (isWordChar d) s' k
      else none

/-- Greedy Kleene star over a character class, trying the longest match first. -/
def starM (p : Char → Bool) (prev : Bool) (s : Text)
    (k : Bool → Text → Option Nat) : Option Nat :=
  match s with
  | [] => k prev []
  | c :: s' =>
      if p c then oor (starM p (isWordChar c) s' k) (fun _ => k prev (c :: s'))
      else k prev (c :: s')

/-- CPS matcher: `mtch r prev s k` tries to match `r` at the start of `s`
(`prev` = whether the character just before `s` is a word character) and
calls `k` on every way of consuming a prefix, in Python's backtracking order. -/
def mtch : RE → Bool → Text → (Bool → Text → Option Nat) → Option Nat
  | .eps, prev, s, k => k prev s
  | .lit cs, prev, s, k => litM cs false prev s k
  | .liti cs, prev, s, k => litM cs true prev s k
  | .cls p, _prev, s, k =>
      match s with
      | [] => none
      | c :: s' => if p c then k (isWordChar c) s' else none
  | .cat a b, prev, s, k => mtch a prev s (fun p' s' => mtch b p' s' k)
  | .alt a b, prev, s, k => oor (mtch a prev s k) (fun _ => mtch b prev s k)
  | .opt a, prev, s, k => oor (mtch a prev s k) (fun _ => k prev s)
  | .star p, prev, s, k => starM p prev s k
  | .bnd, prev, s, k => if prev ≠ wopt s.head? then k prev s else none

/-- Length of the leftmost-greedy match of `r` starting exactly at `s`, if any. -/
def matchLen (r : RE) (prev : Bool) (s : Text) : Option Nat :=
  match mtch r prev s (fun _ rest => some rest.length) with
  | some rem => some (s.length - rem)
  | none => none

/-- Model of `re.search`: does `r` match at some position of `s`? -/
def reSearchAux (r : RE) : Bool → Text → Bool
  | prev, [] => (matchLen r prev []).isSome
  | prev, c :: s' => (matchLen r prev (c :: s')).isSome || reSearchAux r (isWordChar c) s'

def reSearch (r : RE) (s : Text) : Bool := reSearchAux r false s

/-- Word-char status of the last character of `consumed` (or `prev` if none). -/
def lastWord (prev : Bool) (consumed : Text) : Bool :=
  match consumed.getLast? with
  | some c => isWordChar c
  | none => prev

/-- Model of `re.findall` for the patterns used here (all of which match at least one
character): scan left to right, emit each non-overlapping leftmost match and
continue after it.  The first argument is fuel (one unit per character). -/
def reFindAllAux (r : RE) : Nat → Bool → Text → List Text
  | 0, _, _ => []
  | _ + 1, _, [] => []
  | fuel + 1, prev, c :: s' =>
      match matchLen r prev (c :: s') with
      | some 0 => [] :: reFindAllAux r fuel (isWordChar c) s'
      | some (n + 1) =>
          (c :: s').take (n + 1) ::
            reFindAllAux r fuel (lastWord prev ((c :: s').take (n + 1))) ((c :: s').drop (n + 1))
      | none => reFindAllAux r fuel (isWordChar c) s'

def reFindAll (r : RE) (s : Text) : List Text := reFindAllAux r (s.length + 1) false s

/-- A regex that never matches (empty alternation base case). -/
def RE.fail : RE := .cls (fun _ => false)

/-- Ordered alternation over a list (tried left to right, like Python `(?:a|b|c)`). -/
def altL (rs : List RE) : RE := rs.foldr RE.alt RE.fail

/-- Concatenation of a list of regexes. -/
def seqL (rs : List RE) : RE := rs.foldr RE.cat RE.eps

/-- The regex `\s+` (one or more whitespace characters). -/
def wsPlus : RE := .cat (.cls isPySpace) (.star isPySpace)

/-- Ordered alternation of literal words. -/
def altW (ws : List Text) : RE := altL (ws.map RE.lit)

/-! ### Static tables of `intent_classifier.py` -/

/-- The table `self.intent_categories` as constructed in the classifier
initialiser (no learning system attached). -/
def intentCategories : List (String × List Text) :=
  [ ("kyc_verification",
      [txt "account verification", txt "identity check", txt "kyc", txt "document upload",
       txt "verification stuck", txt "pending verification", txt "id verification"]),
    ("technical_support",
      [txt "api error", txt "integration", txt "webhook", txt "error code",
       txt "technical issue", txt "500 error", txt "403 error", txt "404 error",
       txt "timeout", txt "rate limit", txt "sdk"]),
    ("billing_finance",
      [txt "invoice", txt "billing", txt "charge", txt "payment", txt "refund",
       txt "subscription", txt "pricing", txt "cost", txt "fee", txt "balance",
       txt "transaction"]),
    ("compliance_regulatory",
      [txt "compliance", txt "gdpr", txt "pci dss", txt "soc 2", txt "audit",
       txt "regulation", txt "data protection", txt "privacy",
       txt "security certificate", txt "certification"]),
    ("sales_inquiry",
      [txt "demo", txt "pricing plan", txt "enterprise", txt "partnership",
       txt "white label", txt "new customer", txt "signup", txt "trial",
       txt "features"]),
    ("general_support",
      [txt "help", txt "how to", txt "question", txt "information",
       txt "documentation", txt "guide"]) ]

/-- Lookup `self.team_mapping.get(intent, "Tech Support")`. -/
def teamMapping (intent : String) : String :=
  if intent = "kyc_verification" then "KYC Team"
  else if intent = "technical_support" then "Tech Support"
  else if intent = "billing_finance" then "Finance Team"
  else if intent = "compliance_regulatory" then "Compliance Team"
  else if intent = "sales_inquiry" then "Sales Team"
  else if intent = "general_support" then "Tech Support"
  else "Tech Support"

/-- The word `can't` (apostrophe built explicitly). -/
def cantW : Text := ['c', 'a', 'n', aposChar, 't']

def negativeWords : List Text :=
  [txt "error", txt "failed", txt "stuck", txt "problem", txt "issue",
   txt "dispute", txt "wrong", txt "incorrect", cantW, txt "unable"]

def urgentWords : List Text :=
  [txt "urgent", txt "critical", txt "emergency", txt "immediately", txt "asap",
   txt "blocked", txt "down"]

def positiveWords : List Text :=
  [txt "thanks", txt "thank you", txt "great", txt "helpful", txt "appreciate"]

/-- The pattern matching exactly three digits between word boundaries —
the error-code extractor. -/
def errCodeRE : RE := seqL [.bnd, .cls isPyDigit, .cls isPyDigit, .cls isPyDigit, .bnd]

/-- The amount pattern: optional dollar sign, digits, optional dot and
digits, optional whitespace, optional case-insensitive dollar/dollars/USD
word. -/
def amountRE : RE :=
  seqL [.opt (.lit (txt "$")),
        .cat (.cls isPyDigit) (.star isPyDigit),
        .opt (.lit (txt ".")),
        .star isPyDigit,
        .star isPySpace,
        .opt (.alt (.cat (.liti (txt "dollar")) (.opt (.liti (txt "s"))))
                   (.liti (txt "USD")))]

/-- The date pattern: a word boundary, a three-letter month portion, more
lowercase letters, whitespace and one or two digits (two tried first). -/
def dateRE : RE :=
  seqL [.bnd,
        altW [txt "jan", txt "feb", txt "mar", txt "apr", txt "may", txt "jun",
              txt "jul", txt "aug", txt "sep", txt "oct", txt "nov", txt "dec"],
        .star isLowerAZ,
        wsPlus,
        .alt (.cat (.cls isPyDigit) (.cls isPyDigit)) (.cls isPyDigit)]

/-- The four `critical_patterns` regexes. -/
def criticalPatterns : List RE :=
  [ seqL [.bnd, altW [txt "down", txt "not working", txt "completely", txt "totally",
                      txt "entirely"],
          wsPlus, altW [txt "down", txt "broken", txt "failed"]],
    seqL [.bnd, altW [txt "emergency", txt "critical", txt "urgent"],
          wsPlus, altW [txt "issue", txt "problem", txt "situation"]],
    seqL [.bnd, altW [txt "security", txt "breach", txt "leak", txt "hack"]],
    seqL [.bnd, altW [txt "blocked", txt "blocking"],
          wsPlus, altW [txt "all", txt "everything", txt "operations", txt "business"]] ]

/-- The four `high_patterns` regexes. -/
def highPatterns : List RE :=
  [ seqL [.bnd, altW [txt "error", txt "failing", txt "failed", txt "stuck", txt "delayed"],
          wsPlus, altW [txt "for", txt "since"],
          wsPlus, .cat (.cls isPyDigit) (.star isPyDigit)],
    seqL [.bnd, altW [txt "affecting", txt "blocking", txt "preventing"],
          wsPlus, altW [txt "operations", txt "business", txt "transactions"]],
    seqL [.bnd, altW [txt "dispute", txt "discrepancy", txt "wrong charge",
                      txt "incorrect billing"]],
    seqL [.bnd, altW [cantW, txt "cannot", txt "unable"],
          wsPlus, altW [txt "process", txt "complete", txt "access", txt "verify"]] ]

/-- The three `low_patterns` regexes. -/
def lowPatterns : List RE :=
  [ seqL [.bnd, altW [txt "just wondering", txt "curious", txt "feedback", txt "suggestion"]],
    seqL [.bnd, altW [txt "information", txt "info", txt "question"],
          wsPlus, altW [txt "about", txt "regarding"]],
    seqL [.bnd, altW [txt "how do", txt "where can", txt "can you tell"]] ]

/-- Context-bonus regex for `kyc_verification` (+3). -/
def kycBoostRE : RE :=
  seqL [.bnd, altW [txt "verify", txt "verification", txt "kyc", txt "document"],
        wsPlus, altW [txt "stuck", txt "pending", txt "failed", txt "issue"]]

/-- Context-bonus regex for `technical_support` (+3). -/
def techBoostRE : RE :=
  seqL [.bnd, altW [txt "api", txt "webhook", txt "integration", txt "sdk"],
        wsPlus, altW [txt "error", txt "failing", txt "not working"]]

/-- Context-bonus regex for `billing_finance` (+2). -/
def billBoostRE : RE :=
  seqL [.bnd, altW [txt "invoice", txt "payment", txt "charge", txt "refund", txt "billing"],
        wsPlus, altW [txt "question", txt "issue", txt "problem"]]

/-! ### The fallback classifier -/

/-- Result of `classify_intent`/`_fallback_classification`.  The free-text
`reasoning` field is omitted (advisory only, never parsed downstream). -/
structure Classification where
  intent : String
  urgency : String
  confidence : ℚ
  assigned_team : String
  key_entities : List Text
  sentiment : String
deriving DecidableEq, Repr

/-- Entity extraction: error codes (`error_<code>`), amount-like tokens, then
simple month+day dates, in that order. -/
def extractEntities (text : Text) : List Text :=
  ((reFindAll errCodeRE text).map (fun code => txt "error_" ++ code)) ++
    reFindAll amountRE text ++
    reFindAll dateRE (pyLower text)

/-- Sentiment detection: urgent beats negative beats positive beats neutral. -/
def sentimentOf (tl : Text) : String :=
  if urgentWords.any (fun w => containsT tl w) then "urgent"
  else if negativeWords.any (fun w => containsT tl w) then "negative"
  else if positiveWords.any (fun w => containsT tl w) then "positive"
  else "neutral"

/-- The three ordered urgency tiers (critical, then high, then low; default medium). -/
def urgencyTier (tl : Text) : String :=
  if criticalPatterns.any (fun r => reSearch r tl) then "critical"
  else if highPatterns.any (fun r => reSearch r tl) then "high"
  else if lowPatterns.any (fun r => reSearch r tl) then "low"
  else "medium"

/-- The dispute-keyword test (`word in text_lower` for the five dispute words). -/
def disputeHit (tl : Text) : Bool :=
  [txt "dispute", txt "discrepancy", txt "wrong charge", txt "incorrect billing",
   txt "billing error"].any (fun w => containsT tl w)

/-- Search for the escaped keyword between word boundaries. -/
def wbSearch (kw : Text) (tl : Text) : Bool := reSearch (seqL [.bnd, .lit kw, .bnd]) tl

/-- Intent-specific context bonus added to a category's score. -/
def catBoost (intent : String) (tl : Text) : Nat :=
  if intent = "kyc_verification" then (if reSearch kycBoostRE tl then 3 else 0)
  else if intent = "technical_support" then (if reSearch techBoostRE tl then 3 else 0)
  else if intent = "billing_finance" then (if reSearch billBoostRE tl then 2 else 0)
  else 0

/-- Keyword score of one category: +2 per containment, else +1 per
word-boundary match, plus the context bonus. -/
def catScore (intent : String) (keywords : List Text) (tl : Text) : Nat :=
  (keywords.foldl
    (fun sc kw =>
      if containsT tl kw then sc + 2
      else if wbSearch kw tl then sc + 1
      else sc) 0) + catBoost intent tl

/-- Insert-or-overwrite into the score table, preserving first-insertion order
(Python dict assignment). -/
def updScore (l : List (String × Nat)) (k : String) (v : Nat) : List (String × Nat) :=
  match l with
  | [] => [(k, v)]
  | (k', v') :: t => if k' = k then (k', v) :: t else (k', v') :: updScore t k v

/-- The `intent_scores` dict after the dispute seeding and the category loop. -/
def intentScores (cats : List (String × List Text)) (tl : Text) : List (String × Nat) :=
  cats.foldl
    (fun acc c =>
      let s := catScore c.1 c.2 tl
      if s > 0 then updScore acc c.1 s else acc)
    (if disputeHit tl then [("compliance_regulatory", 10)] else [])

/-- Python `max(items, key=lambda x: x[1])`: the first entry attaining the
maximal value (`>` so earlier entries win ties). -/
def maxFirst {α : Type} : List (α × Nat) → Option (α × Nat)
  | [] => none
  | e :: t => some (t.foldl (fun best x => if x.2 > best.2 then x else best) e)

/-- Model of `_fallback_classification`, parameterised by the (possibly learning-extended)
category table. -/
def fallbackClassification (cats : List (String × List Text)) (text : Text) :
    Classification :=
  let tl := pyLower text
  let ents := extractEntities text
  let sentiment := sentimentOf tl
  let urg0 := urgencyTier tl
  let urg := if disputeHit tl then (if urg0 ≠ "critical" then "high" else urg0) else urg0
  let scores := intentScores cats tl
  match maxFirst scores with
  | some (i, s) =>
      { intent := i, urgency := urg,
        confidence := minQ (17 / 20 : ℚ) (1 / 2 + (s : ℚ) * (1 / 20)),
        assigned_team := teamMapping i, key_entities := ents.take 5,
        sentiment := sentiment }
  | none =>
      { intent := "general_support", urgency := urg, confidence := 1 / 2,
        assigned_team := teamMapping "general_support", key_entities := ents.take 5,
        sentiment := sentiment }

/-! ### `_parse_gemini_response` and `classify_intent`

The JSON object extracted from the response text is abstracted as an
`Option RawResult`: `none` models both "no JSON found in response" and a JSON
decode failure, `some r` a successfully decoded object with optional fields.
The `try`/`except` inside `_parse_gemini_response` catches every parse error
itself and returns a fixed default dictionary; only an exception from the
external call (`generate_content`/`response.text`) escapes to `classify_intent`,
whose handler runs `_fallback_classification`. -/

structure RawResult where
  intent : Option String
  urgency : Option String
  confidence : Option ℚ
  key_entities : Option (List Text)
  sentiment : Option String
deriving DecidableEq, Repr

/-- The validated dictionary produced by `_parse_gemini_response`
(before `classify_intent` adds the team). -/
structure ParseResult where
  intent : String
  urgency : String
  confidence : ℚ
  key_entities : List Text
  sentiment : String
deriving DecidableEq, Repr

/-- The default classification returned when parsing the response fails. -/
def defaultParseResult : ParseResult :=
  { intent := "general_support", urgency := "medium", confidence := 1 / 2,
    key_entities := [], sentiment := "neutral" }

/-- Model of `_parse_gemini_response`. -/
def parseGeminiResponse (j : Option RawResult) : ParseResult :=
  match j with
  | none => defaultParseResult
  | some r =>
      match r.intent, r.urgency with
      | some i, some u =>
          { intent := i,
            urgency := if u ∈ ["critical", "high", "medium", "low"] then u else "medium",
            confidence := r.confidence.getD (4 / 5),
            key_entities := r.key_entities.getD [],
            sentiment := r.sentiment.getD "neutral" }
      | _, _ => defaultParseResult

/-- Outcome of the external AI call: it raised, or returned a text whose JSON
extraction is `j`. -/
inductive AIOutcome where
  | err : AIOutcome
  | resp : Option RawResult → AIOutcome
deriving DecidableEq

/-- The combined text: subject (or empty), a newline and the message,
stripped of surrounding whitespace. -/
def combineText (subject : Option String) (message : String) : Text :=
  pyStrip (txt (subject.getD "") ++ '\n' :: txt message)

/-- Model of `classify_intent` (category table passed in; on the success path the team
is added from the mapping, on external-call failure the fallback runs). -/
def classifyIntent (cats : List (String × List Text)) (ai : AIOutcome)
    (message : String) (subject : Option String) : Classification :=
  let fullText := combineText subject message
  match ai with
  | .err => fallbackClassification cats fullText
  | .resp j =>
      let p := parseGeminiResponse j
      { intent := p.intent, urgency := p.urgency, confidence := p.confidence,
        assigned_team := teamMapping p.intent, key_entities := p.key_entities,
        sentiment := p.sentiment }

/-- The classification `classify_intent` returns after any internal parse
failure: the default dictionary plus the mapped team. -/
def defaultClassification : Classification :=
  { intent := "general_support", urgency := "medium", confidence := 1 / 2,
    assigned_team := "Tech Support", key_entities := [], sentiment := "neutral" }

/-! ### `router_agent.py`: `_make_routing_decision` -/

/-- One row of `self.escalation_rules`. -/
structure EscPolicy where
  response_time : String
  notify : List String
  auto_escalate : Bool
deriving DecidableEq, Repr

/-- Lookup of the escalation policy by urgency, defaulting to the medium
policy for unknown urgency strings. -/
def escalationRules (u : String) : EscPolicy :=
  if u = "critical" then ⟨"immediate", ["team_lead", "manager"], true⟩
  else if u = "high" then ⟨"4 hours", ["team_lead"], false⟩
  else if u = "medium" then ⟨"24 hours", [], false⟩
  else if u = "low" then ⟨"48 hours", [], false⟩
  else ⟨"24 hours", [], false⟩

/-- Python rendering of a list of strings: brackets around comma-separated
single-quoted items (entities here contain no quotes or backslashes, so this
rendering is exact). -/
def reprEntityList (es : List Text) : Text :=
  txt "[" ++ List.intercalate (txt ", ") (es.map (fun e => aposChar :: e ++ [aposChar])) ++ txt "]"

/-- The critical-entity test of step 1:
`any(ce in str(key_entities).lower() for ce in critical_entities)`. -/
def criticalEntityHit (es : List Text) : Bool :=
  [txt "error_", txt "security", txt "breach", txt "down", txt "blocked"].any
    (fun ce => containsT (pyLower (reprEntityList es)) ce)

/-- Step 1: sentiment-driven urgency adjustment. -/
def adjustUrgency (sentiment urgency : String) (es : List Text) : String :=
  if sentiment = "urgent" ∧ urgency = "medium" then "high"
  else if sentiment = "negative" ∧ urgency = "high" then
    (if criticalEntityHit es then "critical" else urgency)
  else urgency

/-- The dispute-indicator test of the billing override:
`any(ind in ' '.join(str(e) for e in key_entities).lower() for ind in ...)`. -/
def disputeIndicatorHit (es : List Text) : Bool :=
  [txt "dispute", txt "discrepancy", txt "wrong", txt "incorrect", txt "error"].any
    (fun ind => containsT (pyLower (List.intercalate (txt " ") es)) ind)

/-- Result record of `_make_routing_decision`.  The free-text `reasoning`
field is omitted (advisory only, never parsed downstream). -/
structure RoutingDecision where
  final_team : String
  primary_team : String
  additional_teams : List String
  escalate : Bool
  needs_review : Bool
  response_time : String
  notify : List String
deriving DecidableEq, Repr

/-- Model of `_make_routing_decision`. -/
def makeRoutingDecision (intent urgency : String) (confidence : ℚ)
    (assigned_team sentiment : String) (key_entities : List Text) : RoutingDecision :=
  let urg := adjustUrgency sentiment urgency key_entities
  let esc := escalationRules urg
  let needsReview : Bool := confidence < 3 / 5
  let shouldEscalate : Bool :=
    decide (urg = "critical" ∨ urg = "high") || needsReview || esc.auto_escalate
  let additionalTeams : List String :=
    if intent = "technical_support" ∧ urg = "critical" then ["Tech Lead"]
    else if intent = "compliance_regulatory" then ["Legal Team"]
    else []
  let ft1 : String :=
    if intent = "billing_finance" then
      let ft' := if key_entities ≠ [] ∧ disputeIndicatorHit key_entities
                 then "Compliance Team" else assigned_team
      if sentiment = "negative" ∨ sentiment = "urgent" then "Compliance Team" else ft'
    else assigned_team
  { final_team := if needsReview then "Triage Team" else ft1,
    primary_team := assigned_team,
    additional_teams := additionalTeams,
    escalate := shouldEscalate,
    needs_review := needsReview,
    response_time := esc.response_time,
    notify := esc.notify }

/-- Comparison definition for the frame claim: the same decision computed
WITHOUT the step-1 sentiment urgency adjustment (everything else identical).
Used only to express which outputs the adjustment can influence. -/
def makeRoutingDecisionUnadjusted (intent urgency : String) (confidence : ℚ)
    (assigned_team sentiment : String) (key_entities : List Text) : RoutingDecision :=
  let urg := urgency
  let esc := escalationRules urg
  let needsReview : Bool := confidence < 3 / 5
  let shouldEscalate : Bool :=
    decide (urg = "critical" ∨ urg = "high") || needsReview || esc.auto_escalate
  let additionalTeams : List String :=
    if intent = "technical_support" ∧ urg = "critical" then ["Tech Lead"]
    else if intent = "compliance_regulatory" then ["Legal Team"]
    else []
  let ft1 : String :=
    if intent = "billing_finance" then
      let ft' := if key_entities ≠ [] ∧ disputeIndicatorHit key_entities
                 then "Compliance Team" else assigned_team
      if sentiment = "negative" ∨ sentiment = "urgent" then "Compliance Team" else ft'
    else assigned_team
  { final_team := if needsReview then "Triage Team" else ft1,
    primary_team := assigned_team,
    additional_teams := additionalTeams,
    escalate := shouldEscalate,
    needs_review := needsReview,
    response_time := esc.response_time,
    notify := esc.notify }

/-! ### `ticket_manager.py`: `_generate_ticket_id`, and `process_query` -/

def pyLowerS (s : String) : String := String.mk (pyLower s.data)

/-- Channel part of the ticket id. -/
def channelTag (channel : String) : String :=
  if pyLowerS channel = "email" then "EML"
  else if pyLowerS channel = "chat" then "CHT"
  else if pyLowerS channel = "form" then "FRM"
  else "TKT"

/-- Urgency part of the ticket id. -/
def urgencyTag (urgency : String) : String :=
  if pyLowerS urgency = "critical" then "C"
  else if pyLowerS urgency = "high" then "H"
  else if pyLowerS urgency = "medium" then "M"
  else if pyLowerS urgency = "low" then "L"
  else "M"

/-- Model of `_generate_ticket_id` (timestamp and random component passed
in). -/
def generateTicketId (channel urgency ts uid : String) : String :=
  channelTag channel ++ "-" ++ urgencyTag urgency ++ "-" ++ ts ++ "-" ++ uid

/-- The ticket record `process_query` creates (fields the claims are about;
sender/response/metadata carry external or snapshot data). -/
structure TicketRec where
  ticket_id : String
  channel : String
  message : String
  intent : String
  urgency : String
  assigned_team : String
deriving DecidableEq, Repr

/-- The dictionary `process_query` returns (response drafting is an external
collaborator and is not interpreted; the classification and routing parts are
carried in full). -/
structure ProcessResult where
  ticket_id : String
  channel : String
  classification : Classification
  routing : RoutingDecision
deriving DecidableEq, Repr

/-- Model of `process_query`: classify, decide routing, create the ticket, return the
result.  Logging and best-effort learning hooks do not alter the returned
result or the ticket fields and are omitted. -/
def processQuery (cats : List (String × List Text)) (ai : AIOutcome)
    (channel message : String) (subject : Option String) (ts uid : String) :
    ProcessResult × TicketRec :=
  let c := classifyIntent cats ai message subject
  let rd := makeRoutingDecision c.intent c.urgency c.confidence c.assigned_team
    c.sentiment c.key_entities
  let tid := generateTicketId channel c.urgency ts uid
  (⟨tid, channel, c, rd⟩,
   ⟨tid, channel, message, c.intent, c.urgency, rd.final_team⟩)

/-! ### `database.py`: the `learning_patterns` table -/

/-- Composite key `(pattern_type, pattern_key, pattern_value)`
(`UNIQUE` in the schema). -/
abbrev PKey := String × String × String

/-- One row of `learning_patterns` (timestamps omitted). -/
structure PRow where
  ptype : String
  pkey : String
  pval : String
  confidence : ℚ
  usage_count : Nat
deriving DecidableEq, Repr

def PRow.key (r : PRow) : PKey := (r.ptype, r.pkey, r.pval)

def hasKey (s : List PRow) (k : PKey) : Bool := s.any (fun r => r.key = k)

/-- Update the (first = unique) row with key `k`: `usage_count + 1`, confidence
overwritten. -/
def updRow (s : List PRow) (k : PKey) (c : ℚ) : List PRow :=
  match s with
  | [] => []
  | r :: t =>
      if r.key = k then { r with confidence := c, usage_count := r.usage_count + 1 } :: t
      else r :: updRow t k c

/-- Model of `save_learning_pattern`: upsert keyed on the composite key. -/
def saveLearningPattern (s : List PRow) (k : PKey) (c : ℚ) : List PRow :=
  if hasKey s k then updRow s k c
  else s ++ [⟨k.1, k.2.1, k.2.2, c, 1⟩]

/-- Projection of a row onto key and confidence (dropping `usage_count`). -/
def stripRow (r : PRow) : PKey × ℚ := (r.key, r.confidence)

def stripStore (s : List PRow) : List (PKey × ℚ) := s.map stripRow

/-! ### `learning_system.py`: `analyze_and_update_patterns` -/

/-- The stop-word list of `_extract_keywords`. -/
def stopWords : List Text :=
  [txt "the", txt "a", txt "an", txt "and", txt "or", txt "but", txt "in", txt "on",
   txt "at", txt "to", txt "for", txt "of", txt "with", txt "by", txt "from", txt "as",
   txt "is", txt "was", txt "are", txt "were", txt "been", txt "be", txt "have",
   txt "has", txt "had", txt "do", txt "does", txt "did", txt "will", txt "would",
   txt "should", txt "could", txt "may", txt "might", txt "must", txt "can",
   txt "this", txt "that", txt "these", txt "those", txt "i", txt "you", txt "he",
   txt "she", txt "it", txt "we", txt "they", txt "what", txt "which", txt "who",
   txt "whom", txt "whose", txt "where", txt "when", txt "why", txt "how", txt "all",
   txt "each", txt "every", txt "both", txt "few", txt "more", txt "most", txt "other",
   txt "some", txt "such", txt "no", txt "nor", txt "not", txt "only", txt "own",
   txt "same", txt "so", txt "than", txt "too", txt "very", txt "just", txt "now"]

/-- The keyword pattern: three or more lowercase letters between word
boundaries. -/
def kwRE : RE :=
  seqL [.bnd, .cls isLowerAZ, .cls isLowerAZ, .cls isLowerAZ, .star isLowerAZ, .bnd]

/-- Model of `_extract_keywords`: all 3+-letter lowercase words, stop words removed
(duplicates kept). -/
def extractKeywords (text : Text) : List Text :=
  (reFindAll kwRE (pyLower text)).filter (fun w => !stopWords.contains w)

/-- The ticket fields `analyze_and_update_patterns` reads (`message`/`subject`
as stored strings; `intent`/`assigned_team` may be missing). -/
structure LTicket where
  ticket_id : String
  intent : Option String
  assigned_team : Option String
  message : String
  subject : String
deriving DecidableEq, Repr

/-- Python truthiness of an optional string. -/
def truthyS : Option String → Bool
  | some s => !s.isEmpty
  | none => false

/-- Whether any routing event of the ticket has type ticket_reassigned
(the event log is abstracted as the list of event types per ticket id). -/
def wasReassigned (evts : String → List String) (tid : String) : Bool :=
  (evts tid).contains "ticket_reassigned"

/-- defaultdict(int) bump, preserving first-insertion order. -/
def bump {α : Type} [DecidableEq α] (l : List (α × Nat)) (k : α) : List (α × Nat) :=
  match l with
  | [] => [(k, 1)]
  | (k', v) :: t => if k' = k then (k', v + 1) :: t else (k', v) :: bump t k

/-- Nested defaultdict bump: `counts[i][k] += 1`. -/
def bump2 {α : Type} [DecidableEq α] (l : List (String × List (α × Nat)))
    (i : String) (k : α) : List (String × List (α × Nat)) :=
  match l with
  | [] => [(i, [(k, 1)])]
  | (i', inner) :: t =>
      if i' = i then (i', bump inner k) :: t else (i', inner) :: bump2 t i k

/-- One ticket's contribution to `intent_team_counts`:
`if not was_reassigned and intent and team: counts[intent][team] += 1`. -/
def teamStepCode (evts : String → List String)
    (a : List (String × List (String × Nat))) (t : LTicket) :
    List (String × List (String × Nat)) :=
  if ¬ wasReassigned evts t.ticket_id ∧ truthyS t.intent ∧ truthyS t.assigned_team then
    bump2 a (t.intent.getD "") (t.assigned_team.getD "")
  else a

/-- One ticket's contribution to `intent_keyword_counts`:
`if intent: for kw in keywords: if len(kw) > 3: counts[intent][kw] += 1`. -/
def kwStep (b : List (String × List (Text × Nat))) (t : LTicket) :
    List (String × List (Text × Nat)) :=
  if truthyS t.intent then
    (extractKeywords (pyLower (txt t.message) ++ txt " " ++ pyLower (txt t.subject))).foldl
      (fun ka kw => if kw.length > 3 then bump2 ka (t.intent.getD "") kw else ka)
      b
  else b

/-- The single pass of `analyze_and_update_patterns` computing
`intent_team_counts` (reassigned tickets skipped) and `intent_keyword_counts`
(all tickets with a truthy intent). -/
def tallies (evts : String → List String) (tickets : List LTicket) :
    List (String × List (String × Nat)) × List (String × List (Text × Nat)) :=
  tickets.foldl (fun acc t => (teamStepCode evts acc.1 t, kwStep acc.2 t)) ([], [])

/-- The `team_intent` writes: for each intent, the most common team, if its
count reaches `min_pattern_usage = 2`, at confidence `min(1, count/10)`. -/
def teamSaves (tt : List (String × List (String × Nat))) : List (PKey × ℚ) :=
  (tt.map (fun p =>
    match maxFirst p.2 with
    | some (team, count) =>
        if count ≥ 2 then [(("team_intent", team, p.1), minQ 1 ((count : ℚ) / 10))] else []
    | none => [])).flatten

/-- The `intent_keyword` writes: every (intent, keyword) with count ≥ 2, at
confidence `min(1, count/5)`. -/
def kwSaves (kt : List (String × List (Text × Nat))) : List (PKey × ℚ) :=
  (kt.map (fun p =>
    p.2.filterMap (fun e =>
      if e.2 ≥ 2 then some (("intent_keyword", p.1, String.mk e.1), minQ 1 ((e.2 : ℚ) / 5))
      else none))).flatten

/-- The ordered list of `save_learning_pattern` calls one batch run performs. -/
def savesOf (evts : String → List String) (tickets : List LTicket) : List (PKey × ℚ) :=
  teamSaves (tallies evts tickets).1 ++ kwSaves (tallies evts tickets).2

/-- Model of `analyze_and_update_patterns`: apply every save of the batch to
the store. -/
def analyzeAndUpdatePatterns (evts : String → List String) (tickets : List LTicket)
    (store : List PRow) : List PRow :=
  (savesOf evts tickets).foldl (fun s e => saveLearningPattern s e.1 e.2) store

/-- Spec-side team-tally step: like `teamStepCode` but with no reassignment
check (to be applied to an already-filtered ticket list). -/
def teamStepSpec (a : List (String × List (String × Nat))) (t : LTicket) :
    List (String × List (String × Nat)) :=
  if truthyS t.intent ∧ truthyS t.assigned_team then
    bump2 a (t.intent.getD "") (t.assigned_team.getD "")
  else a

/-- Spec-side team tally (what §4.2 describes): (intent → team) counts over a
ticket list, with no event log involved — to be applied to the non-reassigned
sublist. -/
def teamTallySpec (tickets : List LTicket) : List (String × List (String × Nat)) :=
  tickets.foldl teamStepSpec []

/-- Spec-side keyword tally over a ticket list (no event log involved). -/
def kwTallySpec (tickets : List LTicket) : List (String × List (Text × Nat)) :=
  tickets.foldl kwStep []

/-- The claim's reading of the batch (C5): BOTH tallies computed only over
tickets that were never reassigned. -/
def talliesClaimC5 (evts : String → List String) (tickets : List LTicket) :
    List (String × List (String × Nat)) × List (String × List (Text × Nat)) :=
  let kept := tickets.filter (fun t => !wasReassigned evts t.ticket_id)
  (teamTallySpec kept, kwTallySpec kept)

/-! ### Store upserts at the level of (key, confidence) projections

Used to reason about what the batch changes apart from `usage_count`. -/

def hasKeyQ (q : List (PKey × ℚ)) (k : PKey) : Bool := q.any (fun e => e.1 = k)

def updQ : List (PKey × ℚ) → PKey → ℚ → List (PKey × ℚ)
  | [], _, _ => []
  | e :: t, k, c => if e.1 = k then (e.1, c) :: t else e :: updQ t k c

def lookupQ : List (PKey × ℚ) → PKey → Option ℚ
  | [], _ => none
  | e :: t, k => if e.1 = k then some e.2 else lookupQ t k

def saveQ (q : List (PKey × ℚ)) (k : PKey) (c : ℚ) : List (PKey × ℚ) :=
  if hasKeyQ q k then updQ q k c else q ++ [(k, c)]

def savesQ (L : List (PKey × ℚ)) (q : List (PKey × ℚ)) : List (PKey × ℚ) :=
  L.foldl (fun q e => saveQ q e.1 e.2) q

/-! ### Concrete fixtures used by counterexamples and witnesses -/

/-- A ticket whose message has the 5-letter keyword `hello` twice. -/
def tkA : LTicket := ⟨"t1", some "kyc_verification", some "KYC Team", "hello hello", ""⟩

/-- A second ticket identical up to its id. -/
def tkB : LTicket := ⟨"t2", some "kyc_verification", some "KYC Team", "hello hello", ""⟩

/-- An event log with no events at all. -/
def noEvents : String → List String := fun _ => []

/-- An event log in which every ticket was reassigned. -/
def reassignEv : String → List String := fun _ => ["ticket_reassigned"]

/-- The message of end-to-end scenario 1. -/
def apiMessage : String :=
  "API integration keeps failing with error code 403 when we push payment data."

/-- A message containing the dispute keyword together with enough
technical-support keywords to outscore the seeded compliance score of 10. -/
def disputeTechMessage : Text := txt "dispute api error integration webhook sdk timeout"

/-! ### Small facts about `minQ` -/

theorem minQ_le_left (a b : ℚ) : minQ a b ≤ a := by
  unfold minQ
  split
  · exact le_refl a
  · next h => exact le_of_lt (lt_of_not_le h)

theorem le_minQ {c a b : ℚ} (h1 : c ≤ a) (h2 : c ≤ b) : c ≤ minQ a b := by
  unfold minQ
  split <;> assumption

/-! ## Theorems -/

/-- Claim C1: whenever `confidence < 0.6`, the routing decision has
`needs_review = true` and `final_team = "Triage Team"`, regardless of every
other input — including inputs on which the billing-dispute override would
otherwise pick the Compliance Team. -/
theorem low_confidence_routes_to_triage
    (intent urgency : String) (confidence : ℚ) (team sentiment : String)
    (es : List Text) (h : confidence < 3 / 5) :
    (makeRoutingDecision intent urgency confidence team sentiment es).needs_review = true ∧
    (makeRoutingDecision intent urgency confidence team sentiment es).final_team
      = "Triage Team" := by
  have hd : decide (confidence < 3 / 5) = true := decide_eq_true h
  constructor <;> simp [makeRoutingDecision, hd]

/-- Witness for C1 at confidence 0.5 on a billing dispute with negative
sentiment (an input on which the billing override would fire). -/
theorem low_confidence_routes_to_triage_witness :
    ((1 : ℚ) / 2 < 3 / 5) ∧
    ((makeRoutingDecision "billing_finance" "high" (1 / 2) "Finance Team" "negative"
        [txt "dispute"]).needs_review = true ∧
     (makeRoutingDecision "billing_finance" "high" (1 / 2) "Finance Team" "negative"
        [txt "dispute"]).final_team = "Triage Team") :=
  ⟨by norm_num, low_confidence_routes_to_triage _ _ _ _ _ _ (by norm_num)⟩

/-- Claim C7: the routing decision escalates exactly when the
sentiment-adjusted urgency is critical or high, or review is needed, or the
escalation policy of the adjusted urgency auto-escalates; in particular it
escalates whenever the urgency is critical or high even with
`needs_review = false`. -/
theorem escalation_condition
    (intent urgency : String) (confidence : ℚ) (team sentiment : String) (es : List Text) :
    ((makeRoutingDecision intent urgency confidence team sentiment es).escalate = true) ↔
      (adjustUrgency sentiment urgency es = "critical" ∨
       adjustUrgency sentiment urgency es = "high" ∨
       (makeRoutingDecision intent urgency confidence team sentiment es).needs_review = true ∨
       (escalationRules (adjustUrgency sentiment urgency es)).auto_escalate = true) := by
  simp [makeRoutingDecision, Bool.or_eq_true, decide_eq_true_eq, or_assoc]

/-- Witness for C7: high urgency escalates although review is not needed. -/
theorem escalation_condition_witness :
    (makeRoutingDecision "technical_support" "high" (9 / 10) "Tech Support" "neutral"
      []).escalate = true :=
  (escalation_condition _ _ _ _ _ _).mpr (Or.inr (Or.inl (by decide)))

/-- Claim C8: every fallback confidence lies in `[0.5, 0.85]`
(it is `min(0.85, 0.5 + 0.05·score)` for the winning score), and it is exactly
`0.5` when no category scored. -/
theorem fallback_confidence_bounds (cats : List (String × List Text)) (text : Text) :
    (1 / 2 ≤ (fallbackClassification cats text).confidence ∧
      (fallbackClassification cats text).confidence ≤ 17 / 20) ∧
    (intentScores cats (pyLower text) = [] →
      (fallbackClassification cats text).confidence = 1 / 2) := by
  rcases hm : maxFirst (intentScores cats (pyLower text)) with _ | ⟨i, s⟩
  · refine ⟨?_, fun _ => ?_⟩ <;> simp [fallbackClassification, hm]
    norm_num
  · refine ⟨?_, fun hempty => ?_⟩
    · simp only [fallbackClassification, hm]
      constructor
      · refine le_minQ (by norm_num) ?_
        have : (0 : ℚ) ≤ (s : ℚ) * (1 / 20) := by positivity
        linarith
      · exact minQ_le_left _ _
    · rw [hempty] at hm
      simp [maxFirst] at hm

/-- Witness for C8: a text with no scoring category has confidence exactly 0.5
(and the bounds hold there). -/
theorem fallback_confidence_bounds_witness :
    (fallbackClassification intentCategories (txt "zzz")).confidence = 1 / 2 :=
  (fallback_confidence_bounds intentCategories (txt "zzz")).2 (by decide)

/-- Claim C9: a successfully parsed response whose urgency is outside
{critical, high, medium, low} is not rejected — its urgency is coerced to
medium and its intent is kept. -/
theorem out_of_set_urgency_coerced (r : RawResult) (i u : String)
    (hi : r.intent = some i) (hu : r.urgency = some u)
    (h : u ∉ (["critical", "high", "medium", "low"] : List String)) :
    (parseGeminiResponse (some r)).urgency = "medium" ∧
    (parseGeminiResponse (some r)).intent = i := by
  rcases r with ⟨ri, ru, rc, rk, rs⟩
  have hri : ri = some i := hi
  have hru : ru = some u := hu
  subst hri
  subst hru
  simp [parseGeminiResponse, h]

/-- Witness for C9 at a concrete out-of-set urgency string. -/
theorem out_of_set_urgency_coerced_witness :
    (parseGeminiResponse (some ⟨some "billing_finance", some "URGENT", none, none,
        none⟩)).urgency = "medium" ∧
    (parseGeminiResponse (some ⟨some "billing_finance", some "URGENT", none, none,
        none⟩)).intent = "billing_finance" :=
  out_of_set_urgency_coerced _ "billing_finance" "URGENT" rfl rfl (by decide)

/-- Claim C2 counterexample: a response with no parseable JSON does NOT
produce the keyword-fallback classification — `_parse_gemini_response`
swallows the error and `classify_intent` returns the fixed default
(general_support), while the fallback on the same text returns
billing_finance. -/
theorem parse_failure_without_fallback_cex :
    (classifyIntent intentCategories (.resp none) "invoice" none).intent
      = "general_support" ∧
    (fallbackClassification intentCategories (combineText none "invoice")).intent
      = "billing_finance" ∧
    classifyIntent intentCategories (.resp none) "invoice" none ≠
      fallbackClassification intentCategories (combineText none "invoice") := by decide

/-- Claim C2 (amended): only an exception from the external call makes
`classify_intent` return the keyword fallback; a response with no parseable
JSON, or with intent or urgency absent, yields the fixed default
classification (general_support, medium, confidence 0.5, Tech Support), not
the fallback.  (Out-of-set urgency on a parsed response is coerced instead —
claim C9.) -/
theorem fallback_only_on_call_failure (cats : List (String × List Text))
    (message : String) (subject : Option String) (r : RawResult) :
    classifyIntent cats .err message subject
        = fallbackClassification cats (combineText subject message) ∧
    classifyIntent cats (.resp none) message subject = defaultClassification ∧
    (r.intent = none ∨ r.urgency = none →
      classifyIntent cats (.resp (some r)) message subject = defaultClassification) := by
  refine ⟨rfl, rfl, fun h => ?_⟩
  rcases r with ⟨ri, ru, rc, rk, rs⟩
  rcases h with h | h
  · have hn : ri = none := h
    subst hn
    cases ru <;> rfl
  · have hn : ru = none := h
    subst hn
    cases ri <;> rfl

/-- Witness for C2's amended statement at a concrete parse failure. -/
theorem fallback_only_on_call_failure_witness :
    classifyIntent intentCategories (.resp (some ⟨none, some "high", none, none, none⟩))
        "x" none = defaultClassification :=
  (fallback_only_on_call_failure intentCategories "x" none
    ⟨none, some "high", none, none, none⟩).2.2 (Or.inl rfl)

/-- Claim C6 counterexample: on the scenario-1 message the fallback urgency is
`medium`, not `high` — no high-urgency pattern matches (the first one needs
"error/failing … for/since <number>"). -/
theorem api403_urgency_not_high_cex :
    (fallbackClassification intentCategories (combineText none apiMessage)).urgency
        = "medium" ∧
    (fallbackClassification intentCategories (combineText none apiMessage)).urgency
        ≠ "high" := by decide

/-- Claim C6 (amended): scenario 1 classifies as technical_support / Tech
Support with entity `error_403` extracted — but with urgency `medium`
(sentiment negative, confidence 0.7, and the trailing `"403 "` amount token is
also reported). -/
theorem api403_scenario_amended :
    fallbackClassification intentCategories (combineText none apiMessage)
      = ⟨"technical_support", "medium", 7 / 10, "Tech Support",
         [txt "error_403", txt "403 "], "negative"⟩ := by
  have hscores :
      maxFirst (intentScores intentCategories (pyLower (combineText none apiMessage)))
        = some ("technical_support", 4) := by decide
  have hd : disputeHit (pyLower (combineText none apiMessage)) = false := by decide
  have ht : urgencyTier (pyLower (combineText none apiMessage)) = "medium" := by decide
  have he : extractEntities (combineText none apiMessage)
      = [txt "error_403", txt "403 "] := by decide
  have hs : sentimentOf (pyLower (combineText none apiMessage)) = "negative" := by decide
  simp only [fallbackClassification, hscores, hd, ht, he, hs, Classification.mk.injEq]
  refine ⟨by decide, by decide, ?_, by decide, by decide, by decide⟩
  unfold minQ
  split <;> push_cast <;> norm_num
  next h => push_cast at h; norm_num at h

/-- Claim C10 counterexample: the sentiment-driven urgency promotion also
changes `additional_teams` (high → critical adds "Tech Lead"), a routing
output outside {response_time, notify, escalate}. -/
theorem adjustment_changes_additional_teams_cex :
    (makeRoutingDecision "technical_support" "high" (9 / 10) "Tech Support" "negative"
        [txt "error_500"]).additional_teams = ["Tech Lead"] ∧
    (makeRoutingDecisionUnadjusted "technical_support" "high" (9 / 10) "Tech Support"
        "negative" [txt "error_500"]).additional_teams = [] := by decide

/-- Claim C10 (amended): the sentiment adjustment is local to the routing
decision — the created ticket's urgency, the urgency encoded in the ticket id,
and the classification urgency in the result are the classifier's original
urgency; within the routing decision the adjustment can only influence
response_time, notify, escalate and additional_teams, never final_team,
primary_team or needs_review. -/
theorem sentiment_adjustment_frame (cats : List (String × List Text)) (ai : AIOutcome)
    (channel message : String) (subject : Option String) (ts uid : String)
    (intent urgency : String) (conf : ℚ) (team sentiment : String) (es : List Text) :
    ((processQuery cats ai channel message subject ts uid).1.classification.urgency
        = (classifyIntent cats ai message subject).urgency) ∧
    ((processQuery cats ai channel message subject ts uid).2.urgency
        = (classifyIntent cats ai message subject).urgency) ∧
    ((processQuery cats ai channel message subject ts uid).1.ticket_id
        = generateTicketId channel (classifyIntent cats ai message subject).urgency ts uid) ∧
    ((makeRoutingDecision intent urgency conf team sentiment es).final_team
        = (makeRoutingDecisionUnadjusted intent urgency conf team sentiment es).final_team) ∧
    ((makeRoutingDecision intent urgency conf team sentiment es).primary_team
        = (makeRoutingDecisionUnadjusted intent urgency conf team sentiment es).primary_team) ∧
    ((makeRoutingDecision intent urgency conf team sentiment es).needs_review
        = (makeRoutingDecisionUnadjusted intent urgency conf team sentiment es).needs_review) :=
  ⟨rfl, rfl, rfl, rfl, rfl, rfl⟩

/-- Claim C4 counterexample: a second batch run with unchanged tickets leaves
confidences alone but increments every written pattern's usage_count (1,1
becomes 2,2). -/
theorem batch_usage_count_grows_cex :
    (analyzeAndUpdatePatterns noEvents [tkA, tkB] []).map PRow.usage_count = [1, 1] ∧
    (analyzeAndUpdatePatterns noEvents [tkA, tkB]
        (analyzeAndUpdatePatterns noEvents [tkA, tkB] [])).map PRow.usage_count
      = [2, 2] := by decide

/-- Claim C5 counterexample: a ticket with a `ticket_reassigned` event is
excluded from the (intent→team) tally but its keywords ARE tallied, contrary
to the claim's reading (which would give an empty keyword tally). -/
theorem reassigned_ticket_keywords_counted_cex :
    (tallies reassignEv [tkA]).2 = [("kyc_verification", [(txt "hello", 2)])] ∧
    (talliesClaimC5 reassignEv [tkA]).2 = [] ∧
    (tallies reassignEv [tkA]).1 = [] := by decide

/-! ### Lemmas about the score table and first-max selection (claim C3) -/

theorem foldl_pick_eq_head {α : Type} (e : α × Nat) (t : List (α × Nat))
    (h : ∀ x ∈ t, x.2 ≤ e.2) :
    t.foldl (fun best x => if x.2 > best.2 then x else best) e = e := by
  induction t with
  | nil => rfl
  | cons x xs ih =>
      have hx : ¬ x.2 > e.2 := not_lt.mpr (h x (List.mem_cons_self x xs))
      rw [List.foldl_cons, if_neg hx]
      exact ih (fun y hy => h y (List.mem_cons_of_mem x hy))

theorem maxFirst_cons_of_le {α : Type} (e : α × Nat) (t : List (α × Nat))
    (h : ∀ x ∈ t, x.2 ≤ e.2) : maxFirst (e :: t) = some e := by
  simp [maxFirst, foldl_pick_eq_head e t h]

theorem updScore_cons_ne (k₀ : String) (v₀ : Nat) (t : List (String × Nat))
    (k : String) (v : Nat) (h : k₀ ≠ k) :
    updScore ((k₀, v₀) :: t) k v = (k₀, v₀) :: updScore t k v := by
  simp [updScore, h]

/-- The category loop never moves or rewrites the head entry of the score
table when every category carrying the head's name scores zero. -/
theorem scores_fold_head (tl : Text) (cats : List (String × List Text)) (k₀ : String)
    (v₀ : Nat) :
    ∀ init' : List (String × Nat),
      (∀ c ∈ cats, c.1 = k₀ → catScore c.1 c.2 tl = 0) →
      ∃ rest, cats.foldl
          (fun acc c =>
            let s := catScore c.1 c.2 tl
            if s > 0 then updScore acc c.1 s else acc)
          ((k₀, v₀) :: init') = (k₀, v₀) :: rest := by
  induction cats with
  | nil => exact fun init' _ => ⟨init', rfl⟩
  | cons c cs ih =>
      intro init' h
      rw [List.foldl_cons]
      dsimp only
      by_cases hs : catScore c.1 c.2 tl > 0
      · by_cases hc : c.1 = k₀
        · have h0 := h c (List.mem_cons_self c cs) hc
          omega
        · rw [if_pos hs, updScore_cons_ne k₀ v₀ init' c.1 (catScore c.1 c.2 tl)
            (fun he => hc he.symm)]
          exact ih _ (fun d hd hk => h d (List.mem_cons_of_mem c hd) hk)
      · rw [if_neg hs]
        exact ih init' (fun d hd hk => h d (List.mem_cons_of_mem c hd) hk)

/-- Claim C3 counterexample: a text containing the dispute keyword `dispute`
whose technical-support keyword score (13) exceeds the seeded compliance score
of 10, so the fallback intent is technical_support, not compliance_regulatory. -/
theorem dispute_keyword_overridden_cex :
    disputeHit (pyLower disputeTechMessage) = true ∧
    (fallbackClassification intentCategories disputeTechMessage).intent
      = "technical_support" ∧
    (fallbackClassification intentCategories disputeTechMessage).intent
      ≠ "compliance_regulatory" := by decide

/-- Claim C3 (amended): on a dispute text the fallback urgency is escalated to
high unless the tiered urgency was already critical (never below high); the
intent is compliance_regulatory provided no compliance keyword matches (which
would overwrite the seeded score of 10) and no category's score exceeds 10. -/
theorem dispute_override_amended (cats : List (String × List Text)) (text : Text)
    (hd : disputeHit (pyLower text) = true) :
    ((fallbackClassification cats text).urgency
        = if urgencyTier (pyLower text) = "critical" then "critical" else "high") ∧
    ((∀ c ∈ cats, c.1 = "compliance_regulatory" → catScore c.1 c.2 (pyLower text) = 0) →
     (∀ x ∈ intentScores cats (pyLower text), x.2 ≤ 10) →
     (fallbackClassification cats text).intent = "compliance_regulatory") := by
  constructor
  · rcases hm : maxFirst (intentScores cats (pyLower text)) with _ | ⟨i, s⟩ <;>
      · simp only [fallbackClassification, hm, hd]
        by_cases hc : urgencyTier (pyLower text) = "critical" <;> simp [hc]
  · intro hcomp hle
    obtain ⟨rest, hr⟩ :=
      scores_fold_head (pyLower text) cats "compliance_regulatory" 10 [] hcomp
    have hsc : intentScores cats (pyLower text)
        = ("compliance_regulatory", 10) :: rest := by
      unfold intentScores
      rw [hd]
      exact hr
    have hble : ∀ x ∈ rest, x.2 ≤ 10 := fun x hx =>
      hle x (by rw [hsc]; exact List.mem_cons_of_mem _ hx)
    have hmax : maxFirst (intentScores cats (pyLower text))
        = some ("compliance_regulatory", 10) := by
      rw [hsc]; exact maxFirst_cons_of_le _ _ hble
    simp [fallbackClassification, hmax]

/-- Witness for C3's amended statement on the bare text `dispute`. -/
theorem dispute_override_amended_witness :
    (fallbackClassification intentCategories (txt "dispute")).urgency = "high" ∧
    (fallbackClassification intentCategories (txt "dispute")).intent
      = "compliance_regulatory" := by
  have h := dispute_override_amended intentCategories (txt "dispute") (by decide)
  exact ⟨h.1.trans (by decide), h.2 (by decide) (by decide)⟩

/-! ### Lemmas pairing and filtering the batch tallies (claim C5) -/

theorem tallies_split (evts : String → List String) (ts : List LTicket)
    (a : List (String × List (String × Nat))) (b : List (String × List (Text × Nat))) :
    ts.foldl (fun acc t => (teamStepCode evts acc.1 t, kwStep acc.2 t)) (a, b)
      = (ts.foldl (teamStepCode evts) a, ts.foldl kwStep b) := by
  induction ts generalizing a b with
  | nil => rfl
  | cons t ts ih =>
      rw [List.foldl_cons, List.foldl_cons, List.foldl_cons]
      exact ih _ _

theorem teamStep_filter (evts : String → List String) (ts : List LTicket)
    (a : List (String × List (String × Nat))) :
    ts.foldl (teamStepCode evts) a
      = (ts.filter (fun t => !wasReassigned evts t.ticket_id)).foldl teamStepSpec a := by
  induction ts generalizing a with
  | nil => rfl
  | cons t ts ih =>
      rw [List.foldl_cons, List.filter_cons]
      by_cases hr : wasReassigned evts t.ticket_id = true
      · have h1 : teamStepCode evts a t = a := by
          unfold teamStepCode
          rw [if_neg]
          intro hcon
          exact hcon.1 hr
        rw [h1, if_neg (by simp [hr])]
        exact ih a
      · have h1 : teamStepCode evts a t = teamStepSpec a t := by
          unfold teamStepCode teamStepSpec
          by_cases hx : truthyS t.intent = true ∧ truthyS t.assigned_team = true
          · rw [if_pos ⟨hr, hx.1, hx.2⟩, if_pos ⟨hx.1, hx.2⟩]
          · rw [if_neg (fun hcon => hx ⟨hcon.2.1, hcon.2.2⟩), if_neg hx]
        rw [h1, if_pos (by simp [hr])]
        rw [List.foldl_cons]
        exact ih (teamStepSpec a t)

/-- Claim C5 (amended): the (intent→team) tally is over non-reassigned tickets
only, but the (intent→keyword) tally is over ALL tickets with a truthy intent,
reassigned or not. -/
theorem tally_scope (evts : String → List String) (tickets : List LTicket) :
    (tallies evts tickets).1
        = teamTallySpec (tickets.filter (fun t => !wasReassigned evts t.ticket_id)) ∧
    (tallies evts tickets).2 = kwTallySpec tickets := by
  unfold tallies teamTallySpec kwTallySpec
  rw [tallies_split]
  exact ⟨teamStep_filter evts tickets [], rfl⟩

/-! ### Lemmas about the pattern-store upsert (claim C4)

The batch performs a fixed list of `save_learning_pattern` calls determined by
tickets and events alone; below, upserts are studied on the projection of the
store to (key, confidence) pairs. -/

theorem savesQ_cons (e : PKey × ℚ) (L : List (PKey × ℚ)) (q : List (PKey × ℚ)) :
    savesQ (e :: L) q = savesQ L (saveQ q e.1 e.2) := rfl

theorem hasKeyQ_strip (s : List PRow) (k : PKey) :
    hasKeyQ (stripStore s) k = hasKey s k := by
  induction s with
  | nil => rfl
  | cons r t ih =>
      simp [hasKeyQ, hasKey, stripStore, stripRow, List.any_cons] at ih ⊢
      rw [ih]

theorem stripStore_cons (r : PRow) (t : List PRow) :
    stripStore (r :: t) = stripRow r :: stripStore t := rfl

theorem strip_updRow (s : List PRow) (k : PKey) (c : ℚ) :
    stripStore (updRow s k c) = updQ (stripStore s) k c := by
  induction s with
  | nil => rfl
  | cons r t ih =>
      by_cases h : (r.ptype, r.pkey, r.pval) = k
      · simp [updRow, updQ, stripStore_cons, stripRow, PRow.key, h, stripStore]
      · have ih' : List.map stripRow (updRow t k c) = updQ (List.map stripRow t) k c := ih
        simp [updRow, updQ, stripStore_cons, stripRow, PRow.key, h, ih', stripStore]

theorem strip_save (s : List PRow) (k : PKey) (c : ℚ) :
    stripStore (saveLearningPattern s k c) = saveQ (stripStore s) k c := by
  unfold saveLearningPattern saveQ
  rw [hasKeyQ_strip]
  by_cases h : hasKey s k = true
  · rw [if_pos h, if_pos h]
    exact strip_updRow s k c
  · rw [if_neg h, if_neg h]
    simp [stripStore, stripRow, PRow.key]

theorem strip_savesFold (L : List (PKey × ℚ)) (s : List PRow) :
    stripStore (L.foldl (fun s e => saveLearningPattern s e.1 e.2) s)
      = savesQ L (stripStore s) := by
  induction L generalizing s with
  | nil => rfl
  | cons e L ih =>
      calc stripStore ((e :: L).foldl (fun s e => saveLearningPattern s e.1 e.2) s)
          = stripStore (L.foldl (fun s e => saveLearningPattern s e.1 e.2)
              (saveLearningPattern s e.1 e.2)) := by rw [List.foldl_cons]
        _ = savesQ L (stripStore (saveLearningPattern s e.1 e.2)) := ih _
        _ = savesQ L (saveQ (stripStore s) e.1 e.2) := by rw [strip_save]
        _ = savesQ (e :: L) (stripStore s) := rfl

theorem hasKeyQ_append (q l : List (PKey × ℚ)) (k : PKey) :
    hasKeyQ (q ++ l) k = (hasKeyQ q k || hasKeyQ l k) := by
  simp [hasKeyQ, List.any_append]

theorem hasKeyQ_updQ (q : List (PKey × ℚ)) (k' : PKey) (c : ℚ) (k : PKey) :
    hasKeyQ (updQ q k' c) k = hasKeyQ q k := by
  induction q with
  | nil => rfl
  | cons e t ih =>
      by_cases h : e.1 = k'
      · simp [updQ, h, hasKeyQ, List.any_cons]
      · simp [updQ, h, hasKeyQ, List.any_cons] at ih ⊢
        rw [ih]

theorem saveQ_pos (q : List (PKey × ℚ)) (k : PKey) (c : ℚ)
    (h : hasKeyQ q k = true) : saveQ q k c = updQ q k c := by
  unfold saveQ
  rw [if_pos h]

theorem saveQ_neg (q : List (PKey × ℚ)) (k : PKey) (c : ℚ)
    (h : ¬ hasKeyQ q k = true) : saveQ q k c = q ++ [(k, c)] := by
  unfold saveQ
  rw [if_neg h]

theorem hasKeyQ_saveQ_self (q : List (PKey × ℚ)) (k : PKey) (c : ℚ) :
    hasKeyQ (saveQ q k c) k = true := by
  unfold saveQ
  by_cases h : hasKeyQ q k = true
  · rw [if_pos h, hasKeyQ_updQ]
    exact h
  · rw [if_neg h, hasKeyQ_append]
    simp [hasKeyQ]

theorem hasKeyQ_saveQ_mono (q : List (PKey × ℚ)) (k k' : PKey) (c' : ℚ)
    (h : hasKeyQ q k = true) : hasKeyQ (saveQ q k' c') k = true := by
  unfold saveQ
  by_cases h' : hasKeyQ q k' = true
  · rw [if_pos h', hasKeyQ_updQ]
    exact h
  · rw [if_neg h', hasKeyQ_append, h]
    rfl

theorem hasKeyQ_savesQ_mono (L : List (PKey × ℚ)) (q : List (PKey × ℚ)) (k : PKey)
    (h : hasKeyQ q k = true) : hasKeyQ (savesQ L q) k = true := by
  induction L generalizing q with
  | nil => exact h
  | cons e L ih =>
      rw [savesQ_cons]
      exact ih _ (hasKeyQ_saveQ_mono q k e.1 e.2 h)

theorem updQ_updQ_self (q : List (PKey × ℚ)) (k : PKey) (c c' : ℚ) :
    updQ (updQ q k c) k c' = updQ q k c' := by
  induction q with
  | nil => rfl
  | cons e t ih =>
      by_cases h : e.1 = k
      · simp [updQ, h]
      · simp [updQ, h, ih]

theorem updQ_comm (q : List (PKey × ℚ)) (k₁ : PKey) (c₁ : ℚ) (k₂ : PKey) (c₂ : ℚ)
    (h : k₁ ≠ k₂) :
    updQ (updQ q k₁ c₁) k₂ c₂ = updQ (updQ q k₂ c₂) k₁ c₁ := by
  induction q with
  | nil => rfl
  | cons e t ih =>
      by_cases h1 : e.1 = k₁
      · have h2 : ¬ e.1 = k₂ := fun hc => h (h1 ▸ hc)
        simp [updQ, h1, h2, h]
      · by_cases h2 : e.1 = k₂
        · simp [updQ, h1, h2, Ne.symm h]
        · simp [updQ, h1, h2, ih]

theorem updQ_append (q l : List (PKey × ℚ)) (k : PKey) (c : ℚ)
    (h : hasKeyQ q k = true) : updQ (q ++ l) k c = updQ q k c ++ l := by
  induction q with
  | nil => simp [hasKeyQ] at h
  | cons e t ih =>
      by_cases he : e.1 = k
      · simp [updQ, he]
      · have ht : hasKeyQ t k = true := by
          simpa [hasKeyQ, List.any_cons, he] using h
        simp [updQ, he, ih ht]

theorem lookupQ_updQ_self (q : List (PKey × ℚ)) (k : PKey) (c : ℚ)
    (h : hasKeyQ q k = true) : lookupQ (updQ q k c) k = some c := by
  induction q with
  | nil => simp [hasKeyQ] at h
  | cons e t ih =>
      by_cases he : e.1 = k
      · simp [updQ, lookupQ, he]
      · have ht : hasKeyQ t k = true := by
          simpa [hasKeyQ, List.any_cons, he] using h
        simp [updQ, lookupQ, he, ih ht]

theorem lookupQ_updQ_ne (q : List (PKey × ℚ)) (k' : PKey) (c : ℚ) (k : PKey)
    (h : k' ≠ k) : lookupQ (updQ q k' c) k = lookupQ q k := by
  induction q with
  | nil => rfl
  | cons e t ih =>
      by_cases he : e.1 = k'
      · have hek : ¬ e.1 = k := fun hc => h (he ▸ hc)
        simp [updQ, lookupQ, he, hek, h]
      · by_cases hk : e.1 = k
        · simp [updQ, lookupQ, he, hk, Ne.symm h]
        · simp [updQ, lookupQ, he, hk, ih]

theorem lookupQ_append_left (q l : List (PKey × ℚ)) (k : PKey)
    (h : hasKeyQ q k = true) : lookupQ (q ++ l) k = lookupQ q k := by
  induction q with
  | nil => simp [hasKeyQ] at h
  | cons e t ih =>
      by_cases he : e.1 = k
      · simp [lookupQ, he]
      · have ht : hasKeyQ t k = true := by
          simpa [hasKeyQ, List.any_cons, he] using h
        simp [lookupQ, he, ih ht]

theorem lookupQ_append_right (q l : List (PKey × ℚ)) (k : PKey)
    (h : hasKeyQ q k = false) : lookupQ (q ++ l) k = lookupQ l k := by
  induction q with
  | nil => rfl
  | cons e t ih =>
      have he : ¬ e.1 = k := by
        intro hc
        simp [hasKeyQ, List.any_cons, hc] at h
      have ht : hasKeyQ t k = false := by
        have := h
        simp [hasKeyQ, List.any_cons, he] at this ⊢
        exact this
      simp [lookupQ, he, ih ht]

theorem lookupQ_saveQ_self (q : List (PKey × ℚ)) (k : PKey) (c : ℚ) :
    lookupQ (saveQ q k c) k = some c := by
  unfold saveQ
  by_cases h : hasKeyQ q k = true
  · rw [if_pos h]
    exact lookupQ_updQ_self q k c h
  · rw [if_neg h]
    rw [lookupQ_append_right q _ k (by simpa using h)]
    simp [lookupQ]

theorem updQ_self_of_lookup (q : List (PKey × ℚ)) (k : PKey) (c : ℚ)
    (h : lookupQ q k = some c) : updQ q k c = q := by
  induction q with
  | nil => rfl
  | cons e t ih =>
      by_cases he : e.1 = k
      · have h' : some e.2 = some c := by
          rw [lookupQ, if_pos he] at h
          exact h
        have hec : e.2 = c := Option.some.inj h'
        simp [updQ, he, Prod.ext_iff, hec]
      · have ht : lookupQ t k = some c := by
          simpa [lookupQ, he] using h
        simp [updQ, he, ih ht]

theorem lookupQ_savesQ_ne (L : List (PKey × ℚ)) (q : List (PKey × ℚ)) (k : PKey)
    (hq : hasKeyQ q k = true) (hL : k ∉ L.map Prod.fst) :
    lookupQ (savesQ L q) k = lookupQ q k := by
  induction L generalizing q with
  | nil => rfl
  | cons e L ih =>
      have h1 : ¬ k = e.1 ∧ k ∉ L.map Prod.fst := by
        simpa [not_or] using hL
      rw [savesQ_cons]
      rw [ih (saveQ q e.1 e.2) (hasKeyQ_saveQ_mono q k e.1 e.2 hq) h1.2]
      unfold saveQ
      by_cases hh : hasKeyQ q e.1 = true
      · rw [if_pos hh]
        exact lookupQ_updQ_ne q e.1 e.2 k (fun hc => h1.1 hc.symm)
      · rw [if_neg hh]
        exact lookupQ_append_left q _ k hq

theorem savesQ_updQ_absorb (L : List (PKey × ℚ)) (q : List (PKey × ℚ)) (k : PKey)
    (c : ℚ) (hq : hasKeyQ q k = true) (hL : k ∈ L.map Prod.fst) :
    savesQ L (updQ q k c) = savesQ L q := by
  induction L generalizing q c with
  | nil => simp at hL
  | cons e L ih =>
      rw [savesQ_cons, savesQ_cons]
      by_cases he : e.1 = k
      · subst he
        have e1 : saveQ (updQ q e.1 c) e.1 e.2 = updQ (updQ q e.1 c) e.1 e.2 := by
          unfold saveQ
          rw [if_pos (by rw [hasKeyQ_updQ]; exact hq)]
        have e2 : saveQ q e.1 e.2 = updQ q e.1 e.2 := by
          unfold saveQ
          rw [if_pos hq]
        rw [e1, e2, updQ_updQ_self]
      · have hL' : k ∈ L.map Prod.fst := by
          rcases (by simpa using hL : k = e.1 ∨ k ∈ L.map Prod.fst) with h | h
          · exact absurd h.symm he
          · exact h
        by_cases hh : hasKeyQ q e.1 = true
        · have e1 : saveQ (updQ q k c) e.1 e.2 = updQ (updQ q k c) e.1 e.2 := by
            unfold saveQ
            rw [if_pos (by rw [hasKeyQ_updQ]; exact hh)]
          have e2 : saveQ q e.1 e.2 = updQ q e.1 e.2 := by
            unfold saveQ
            rw [if_pos hh]
          rw [e1, e2, updQ_comm q k c e.1 e.2 (fun hc => he hc.symm)]
          exact ih (updQ q e.1 e.2) c (by rw [hasKeyQ_updQ]; exact hq) hL'
        · have e1 : saveQ (updQ q k c) e.1 e.2 = updQ q k c ++ [(e.1, e.2)] := by
            unfold saveQ
            rw [if_neg (by rw [hasKeyQ_updQ]; exact hh)]
          have e2 : saveQ q e.1 e.2 = q ++ [(e.1, e.2)] := by
            unfold saveQ
            rw [if_neg hh]
          rw [e1, e2, ← updQ_append q [(e.1, e.2)] k c hq]
          exact ih (q ++ [(e.1, e.2)]) c (by rw [hasKeyQ_append, hq]; rfl) hL'

theorem savesQ_updQ_comm (L : List (PKey × ℚ)) (q : List (PKey × ℚ)) (k : PKey)
    (c : ℚ) (hq : hasKeyQ q k = true) (hL : k ∉ L.map Prod.fst) :
    savesQ L (updQ q k c) = updQ (savesQ L q) k c := by
  induction L generalizing q with
  | nil => rfl
  | cons e L ih =>
      have h1 : ¬ k = e.1 ∧ k ∉ L.map Prod.fst := by
        simpa [not_or] using hL
      rw [savesQ_cons, savesQ_cons]
      by_cases hh : hasKeyQ q e.1 = true
      · have e1 : saveQ (updQ q k c) e.1 e.2 = updQ (updQ q k c) e.1 e.2 := by
          unfold saveQ
          rw [if_pos (by rw [hasKeyQ_updQ]; exact hh)]
        have e2 : saveQ q e.1 e.2 = updQ q e.1 e.2 := by
          unfold saveQ
          rw [if_pos hh]
        rw [e1, e2, updQ_comm q k c e.1 e.2 h1.1]
        exact ih (updQ q e.1 e.2) (by rw [hasKeyQ_updQ]; exact hq) h1.2
      · have e1 : saveQ (updQ q k c) e.1 e.2 = updQ q k c ++ [(e.1, e.2)] := by
          unfold saveQ
          rw [if_neg (by rw [hasKeyQ_updQ]; exact hh)]
        have e2 : saveQ q e.1 e.2 = q ++ [(e.1, e.2)] := by
          unfold saveQ
          rw [if_neg hh]
        rw [e1, e2, ← updQ_append q [(e.1, e.2)] k c hq]
        exact ih (q ++ [(e.1, e.2)]) (by rw [hasKeyQ_append, hq]; rfl) h1.2

/-- Replaying the same list of upserts is the identity on (key, confidence)
projections: each key ends at the confidence of its last save either way. -/
theorem savesQ_idem (L : List (PKey × ℚ)) (q : List (PKey × ℚ)) :
    savesQ L (savesQ L q) = savesQ L q := by
  induction L generalizing q with
  | nil => rfl
  | cons e L ih =>
      rw [savesQ_cons, savesQ_cons]
      have hq1 : hasKeyQ (saveQ q e.1 e.2) e.1 = true := hasKeyQ_saveQ_self q e.1 e.2
      have hq2 : hasKeyQ (savesQ L (saveQ q e.1 e.2)) e.1 = true :=
        hasKeyQ_savesQ_mono L _ e.1 hq1
      rw [saveQ_pos (savesQ L (saveQ q e.1 e.2)) e.1 e.2 hq2]
      by_cases hmem : e.1 ∈ L.map Prod.fst
      · rw [savesQ_updQ_absorb L _ e.1 e.2 hq2 hmem]
        exact ih _
      · rw [savesQ_updQ_comm L _ e.1 e.2 hq2 hmem, ih _]
        apply updQ_self_of_lookup
        rw [lookupQ_savesQ_ne L _ e.1 hq1 hmem]
        exact lookupQ_saveQ_self q e.1 e.2

/-- Claim C4 (amended): re-running `analyze_and_update_patterns` with no new
tickets re-derives every confidence from scratch — the store after the second
run agrees with the store after the first on every row's key and confidence —
but each written pattern's `usage_count` is incremented again by the upsert,
so usage counts do differ between the runs. -/
theorem batch_idempotent_mod_usage (evts : String → List String)
    (tickets : List LTicket) (store : List PRow) :
    stripStore (analyzeAndUpdatePatterns evts tickets
        (analyzeAndUpdatePatterns evts tickets store))
      = stripStore (analyzeAndUpdatePatterns evts tickets store) := by
  unfold analyzeAndUpdatePatterns
  rw [strip_savesFold, strip_savesFold]
  exact savesQ_idem _ _

end QueryRouter
